import Mathlib

/-
  Verification of the RxR (EFA RDM messaging layer) and SMR (shared memory)
  provider sources of this libfabric tree.

  Shallow embedding: C structs become Lean structures, the inline helper
  functions of src/prov/efa/src/rxr/rxr.h, src/prov/efa/src/rxr/rxr_domain.c
  and src/prov/shm/src/smr_ep.c become Lean functions on those structures.
  Machine integers are modelled as Nat (with explicit `% 2^w` where a C
  conversion truncates); C `int` values used as truth values are modelled as
  Int compared against 0.
-/

/- ===================== External header constants ===================== -/

/-- FI_ORDER_SAS bit from the libfabric public header rdma/fabric.h
(external to this tree): `(1 << 8)`. Only its role as a mask bit matters. -/
def FI_ORDER_SAS : Nat := 1 <<< 8

/-- FI_ADDR_UNSPEC from rdma/fabric.h: `((uint64_t) -1)`, i.e. 2^64 - 1. -/
def FI_ADDR_UNSPEC : Nat := 2 ^ 64 - 1

/-- FI_HMEM_SYSTEM is the first enumerator of `enum fi_hmem_iface`
in rdma/fabric.h, with value 0. -/
def FI_HMEM_SYSTEM : Nat := 0

/-- FI_ECANCELED from rdma/fi_errno.h, aliasing errno ECANCELED (125 on
Linux). Only its identity as the cancellation error code matters. -/
def FI_ECANCELED : Nat := 125

/-- ofi_op_msg is the first enumerator of `enum ofi_op_type` in
ofi_proto.h, with value 0. -/
def ofi_op_msg : Nat := 0

/- ===================== rxr.h constants ===================== -/

/-- `#define RXR_MAJOR_VERSION (2)` (rxr.h line 69). -/
def RXR_MAJOR_VERSION : Nat := 2

/-- `#define RXR_MINOR_VERSION (0)` (rxr.h line 70). -/
def RXR_MINOR_VERSION : Nat := 0

/-- `#define RXR_PROTOCOL_VERSION (4)` (rxr.h line 71). -/
def RXR_PROTOCOL_VERSION : Nat := 4

/-- `#define RXR_IOV_LIMIT (4)` (rxr.h line 74). -/
def RXR_IOV_LIMIT : Nat := 4

/-- `#define RXR_MAX_NAME_LENGTH (32)` (rxr.h line 131). -/
def RXR_MAX_NAME_LENGTH : Nat := 32

/-- `#define RXR_MTU_MAX_LIMIT BIT_ULL(15)` (rxr.h line 181);
`BIT_ULL(n)` is `(1ULL << n)`. -/
def RXR_MTU_MAX_LIMIT : Nat := 1 <<< 15

/-- `#define RXR_DEF_RNR_MAX_TIMEOUT (1000000)` (rxr.h line 100):
maximum timeout for RNR backoff, in microseconds. -/
def RXR_DEF_RNR_MAX_TIMEOUT : Nat := 1000000

/-- `#define RXR_DEF_MAX_RX_WINDOW (128)` (rxr.h line 106). -/
def RXR_DEF_MAX_RX_WINDOW : Nat := 128

/-- `#define RXR_DEF_MAX_TX_CREDITS (64)` (rxr.h line 107). -/
def RXR_DEF_MAX_TX_CREDITS : Nat := 64

/-- `#define RXR_RECVWIN_SIZE (16384)` (rxr.h line 95). -/
def RXR_RECVWIN_SIZE : Nat := 16384

/-- `RXR_TX_FREE = 0`, the first enumerator of `enum rxr_tx_comm_type`
(rxr.h line 240). -/
def RXR_TX_FREE : Nat := 0

/-- `RXR_RX_FREE = 0`, the first enumerator of `enum rxr_rx_comm_type`
(rxr.h line 262). -/
def RXR_RX_FREE : Nat := 0

/-- The `MIN` macro from ofi.h: `((a) < (b) ? (a) : (b))`. -/
def MIN (a b : Nat) : Nat := if a < b then a else b

/- ===================== rxr data model ===================== -/

/-- The fields of `struct rxr_env` (rxr.h lines 201-227) that the embedded
functions consume. C `int` fields holding sizes/timeouts are modelled as
Nat; `enable_sas_ordering` is an `int` used as a truth value, modelled as
Int compared with 0. -/
structure rxr_env where
  rx_window_size : Nat
  tx_min_credits : Nat
  tx_max_credits : Nat
  enable_sas_ordering : Int
  recvwin_size : Nat
  max_timeout : Nat
  timeout_interval : Nat
deriving DecidableEq

/-- `struct rxr_peer` (rxr.h lines 313-331). The receive window `robuf` is a
pointer to an allocated reorder buffer; it is modelled as `Option Nat`
holding the number of slots the buffer was allocated with (`none` before
allocation). The two dlist link fields are bookkeeping for intrusive lists
and carry no data; they are omitted. `uint16_t` credit fields are Nat kept
below 2^16 by explicit truncation at assignment. -/
structure rxr_peer where
  tx_init : Bool
  rx_init : Bool
  is_local : Bool
  shm_fiaddr : Nat
  robuf : Option Nat
  next_msg_id : Nat
  state : Nat
  rnr_state : Nat
  tx_pending : Nat
  tx_credits : Nat
  rx_credits : Nat
  rnr_ts : Nat
  rnr_queued_pkt_cnt : Nat
  timeout_interval : Nat
  rnr_timeout_exp : Nat
deriving DecidableEq

/-- The fields of `struct rxr_ep` (rxr.h lines 495-637) that the embedded
functions consume: the application's and the core provider's message-order
capability masks, the resource-management flags, the endpoint-wide count of
outstanding sends, and the per-peer records (`ep->peer`, an array indexed
by fi_addr, modelled as a list). -/
structure rxr_ep where
  msg_order : Nat
  core_msg_order : Nat
  rm_full : Nat
  tx_pending : Nat
  peer : List rxr_peer
deriving DecidableEq

/-- `rxr_need_sas_ordering` (rxr.h lines 792-802):
`(ep->msg_order & FI_ORDER_SAS) && !(ep->core_msg_order & FI_ORDER_SAS) &&
rxr_env.enable_sas_ordering`. -/
def rxr_need_sas_ordering (env : rxr_env) (ep : rxr_ep) : Bool :=
  (ep.msg_order &&& FI_ORDER_SAS != 0) &&
  (ep.core_msg_order &&& FI_ORDER_SAS == 0) &&
  (env.enable_sas_ordering != 0)

/-- `rxr_peer_timeout_expired` (rxr.h lines 956-963):
`ts >= peer->rnr_ts + MIN(rxr_env.max_timeout,
peer->timeout_interval * (1 << peer->rnr_timeout_exp))`. -/
def rxr_peer_timeout_expired (env : rxr_env) (peer : rxr_peer) (ts : Nat) : Bool :=
  decide (ts ≥ peer.rnr_ts +
    MIN env.max_timeout (peer.timeout_interval * (1 <<< peer.rnr_timeout_exp)))

/-- `rxr_ep_peer_init` (rxr.h lines 659-678). The C code asserts
`!peer->rx_init`, pops a reorder buffer from the endpoint's free stack and
sizes it with `ofi_recvwin_buf_alloc(robuf, rxr_env.recvwin_size)`
(modelled as `robuf := some recvwin_size`; the code asserts the allocation
succeeded), inserts the peer into `ep->peer_list` (an intrusive-list
membership not reflected in the peer record itself), pre-credits
`rx_credits` from `rxr_env.rx_window_size` (an `int` assigned to a
`uint16_t`, hence the `% 2^16`), sets `rx_init`, and initializes the tx
state only if `!peer->tx_init`. -/
def rxr_ep_peer_init (env : rxr_env) (peer : rxr_peer) : rxr_peer :=
  let peer := { peer with
    robuf := some env.recvwin_size,
    rx_credits := env.rx_window_size % 2 ^ 16,
    rx_init := true }
  if !peer.tx_init then
    { peer with tx_credits := env.tx_max_credits % 2 ^ 16, tx_init := true }
  else
    peer

/-- `rxr_match_addr` (rxr.h lines 749-752):
`addr == FI_ADDR_UNSPEC || addr == match_addr`. -/
def rxr_match_addr (addr match_addr : Nat) : Bool :=
  addr == FI_ADDR_UNSPEC || addr == match_addr

/-- `rxr_match_tag` (rxr.h lines 754-758):
`(tag | ignore) == (match_tag | ignore)`. -/
def rxr_match_tag (tag ignore match_tag : Nat) : Bool :=
  (tag ||| ignore) == (match_tag ||| ignore)

/- ===================== efa_eq_write_error ===================== -/

/-- The field of `struct util_ep` that `efa_eq_write_error` consumes: the
bound event queue pointer `ep->eq` (`none` when no EQ is bound). -/
structure util_ep where
  eq : Option Nat
deriving DecidableEq

/-- `sizeof(struct fi_eq_err_entry)`: the full error-entry size that a
successful `fi_eq_write` returns. The concrete byte count is ABI-dependent;
only equality against the write's return value matters. -/
def sizeof_fi_eq_err_entry : Nat := 88

/-- Outcome of `efa_eq_write_error`: either the function returns normally
or it calls `abort()`. -/
inductive eq_write_outcome where
  | returned
  | aborted
deriving DecidableEq

/-- `efa_eq_write_error` (rxr.h lines 877-907). `ret` starts as `-FI_ENOEQ`;
only when an EQ is bound is `fi_eq_write` called, and only a return value
equal to `sizeof(err_entry)` makes the function return; every other path
falls through to `abort()`. `fi_eq_write` is an external collaborator, so
its return value for this call is taken as the argument `eq_write_ret`. -/
def efa_eq_write_error (ep : util_ep) (eq_write_ret : Int) : eq_write_outcome :=
  match ep.eq with
  | some _ =>
      if eq_write_ret == (sizeof_fi_eq_err_entry : Int) then .returned
      else .aborted
  | none => .aborted

/- ===================== rxr_domain.c memory registration ===================== -/

/-- `struct fi_mr_attr` as populated by `rxr_mr_regv` (rxr_domain.c lines
258-273): iov list, iov_count, access, offset, requested_key, context and
the memory interface `iface`. Pointers are modelled as Nat ids. -/
structure fi_mr_attr where
  mr_iov : List (Nat × Nat)
  iov_count : Nat
  access : Nat
  offset : Nat
  requested_key : Nat
  context : Nat
  iface : Nat
deriving DecidableEq

/-- `rxr_mr_regv` (rxr_domain.c lines 258-273): builds a `fi_mr_attr` from
its arguments — including `attr.iface = FI_HMEM_SYSTEM` — and forwards it
to `rxr_mr_regattr`. The embedding returns the attr that is passed on,
which is the object the claim is about. -/
def rxr_mr_regv (iov : List (Nat × Nat)) (count access offset requested_key context : Nat) :
    fi_mr_attr :=
  { mr_iov := iov
    iov_count := count
    access := access
    offset := offset
    requested_key := requested_key
    context := context
    iface := FI_HMEM_SYSTEM }

/-- `rxr_mr_reg` (rxr_domain.c lines 275-286): wraps the buffer in a single
iovec and delegates to `rxr_mr_regv`. -/
def rxr_mr_reg (buf len access offset requested_key context : Nat) : fi_mr_attr :=
  rxr_mr_regv [(buf, len)] 1 access offset requested_key context

/-- The spec's description of `rxr_mr_regv` rather than the source: the
spec suspects an "omission of `iface` initialization when wrapping `reg`".
A local `struct fi_mr_attr` whose `iface` field is never assigned keeps
whatever indeterminate word the stack held, taken here as the parameter
`stack_iface`; every other field is populated as in the source. This
definition exists to be compared against `rxr_mr_regv`, which embeds the
source (rxr_domain.c lines 258-273) and does assign
`attr.iface = FI_HMEM_SYSTEM` at line 271. -/
def rxr_mr_regv_spec_omitted_iface (stack_iface : Nat) (iov : List (Nat × Nat))
    (count access offset requested_key context : Nat) : fi_mr_attr :=
  { mr_iov := iov
    iov_count := count
    access := access
    offset := offset
    requested_key := requested_key
    context := context
    iface := stack_iface }

/- ===================== entry release and poisoning ===================== -/

/-- The sentinel `rxr_poison_value`, declared `extern const uint32_t` in
rxr.h (line 77); its defining translation unit is outside the provided
sources. A fixed concrete word stands in for it; the claims depend only on
it being one fixed value. -/
def rxr_poison_value : Nat := 0xdeadbeef

/-- The loop body of `rxr_poison_mem_region` (rxr.h lines 78-84):
`for (i = 0; i < size / sizeof(rxr_poison_value); i++)` copy the sentinel
into word `i`. `mem` is the region viewed as 32-bit words, `i` the current
index, and the third argument the remaining iteration count. -/
def poison_words (mem : List Nat) (i : Nat) : Nat → List Nat
  | 0 => mem
  | c + 1 => poison_words (mem.set i rxr_poison_value) (i + 1) c

/-- `rxr_poison_mem_region(ptr, size)` (rxr.h lines 78-84) with the region
given as its list of 32-bit words (`size / sizeof(uint32_t)` iterations
over a region of `size` bytes). -/
def rxr_poison_mem_region (mem : List Nat) : List Nat :=
  poison_words mem 0 mem.length

/-- Memory-level view of a `struct rxr_tx_entry` / `struct rxr_rx_entry`
for the release path: the record's storage as a list of 32-bit words
(poisoning is a word-by-word overwrite of that storage), together with the
`queued_pkts` list whose emptiness the release functions assert. The state
field lives at some word offset within the record; the offset is
layout-dependent, so the release functions take it as a parameter. -/
structure rxr_x_entry_mem where
  queued_pkts : List Nat
  mem : List Nat
deriving DecidableEq

/-- `rxr_release_tx_entry` (rxr.h lines 704-717): asserts
`dlist_empty(&tx_entry->queued_pkts)`; with ENABLE_EFA_POISONING the whole
record is first overwritten via
`rxr_poison_mem_region((uint32_t *)tx_entry, sizeof(struct rxr_tx_entry))`;
then `tx_entry->state = RXR_TX_FREE` and `ofi_buf_free(tx_entry)` returns
the record to its pool (modelled as consing onto the pool's free list).
`state_off` is the word offset of the `state` field. The ENABLE_DEBUG
bookkeeping list removal is debug-only and not modelled. -/
def rxr_release_tx_entry (poisoning : Bool) (state_off : Nat)
    (tx_entry : rxr_x_entry_mem) (pool : List rxr_x_entry_mem) :
    List rxr_x_entry_mem :=
  let m := if poisoning then rxr_poison_mem_region tx_entry.mem else tx_entry.mem
  { queued_pkts := tx_entry.queued_pkts, mem := m.set state_off RXR_TX_FREE } :: pool

/-- `rxr_release_rx_entry` (rxr.h lines 719-732): identical shape to
`rxr_release_tx_entry`, setting `rx_entry->state = RXR_RX_FREE`. -/
def rxr_release_rx_entry (poisoning : Bool) (state_off : Nat)
    (rx_entry : rxr_x_entry_mem) (pool : List rxr_x_entry_mem) :
    List rxr_x_entry_mem :=
  let m := if poisoning then rxr_poison_mem_region rx_entry.mem else rx_entry.mem
  { queued_pkts := rx_entry.queued_pkts, mem := m.set state_off RXR_RX_FREE } :: pool

/- ===================== tx_pending counters ===================== -/

/-- Update the `i`-th element of a list in place (the effect of writing
through `&ep->peer[addr]`). Out-of-range indices leave the list unchanged. -/
def listModify {α : Type} (l : List α) (i : Nat) (f : α → α) : List α :=
  match l, i with
  | [], _ => []
  | a :: t, 0 => f a :: t
  | a :: t, n + 1 => a :: listModify t n f

/-- `rxr_ep_inc_tx_pending` (rxr.h lines 760-768): `ep->tx_pending++;
peer->tx_pending++;` with `peer = &ep->peer[i]`. The ENABLE_DEBUG
`ep->sends++` counter is debug-only and not modelled. -/
def rxr_ep_inc_tx_pending (ep : rxr_ep) (i : Nat) : rxr_ep :=
  { ep with
    tx_pending := ep.tx_pending + 1,
    peer := listModify ep.peer i (fun p => { p with tx_pending := p.tx_pending + 1 }) }

/-- `rxr_ep_dec_tx_pending` (rxr.h lines 770-780): `ep->tx_pending--;
peer->tx_pending--;` with `peer = &ep->peer[i]`. `failed` only feeds the
debug-only `failed_send_comps` counter. -/
def rxr_ep_dec_tx_pending (ep : rxr_ep) (i : Nat) (failed : Int) : rxr_ep :=
  { ep with
    tx_pending := ep.tx_pending - 1,
    peer := listModify ep.peer i (fun p => { p with tx_pending := p.tx_pending - 1 }) }

/-- Sum over all peers of `peer->tx_pending`. -/
def tx_pending_sum (l : List rxr_peer) : Nat :=
  l.foldr (fun p s => p.tx_pending + s) 0

/-- One call to `rxr_ep_inc_tx_pending` or `rxr_ep_dec_tx_pending`,
identified by the target peer index (and, for dec, the `failed` flag). -/
inductive tx_pending_op where
  | inc (i : Nat)
  | dec (i : Nat) (failed : Int)
deriving DecidableEq

/-- Apply one counter call to the endpoint. -/
def apply_tx_pending_op (ep : rxr_ep) : tx_pending_op → rxr_ep
  | .inc i => rxr_ep_inc_tx_pending ep i
  | .dec i failed => rxr_ep_dec_tx_pending ep i failed

/-- One counter call is admissible at `ep` when it targets an existing
peer and, for a decrement, the peer has at least one pending send (which
is what pairing each dec with a prior inc guarantees, given that a
`size_t` decrement of 0 would wrap). -/
def tx_pending_op_ok (ep : rxr_ep) : tx_pending_op → Bool
  | .inc i => decide (i < ep.peer.length)
  | .dec i _ =>
      decide (i < ep.peer.length) &&
      (match ep.peer.get? i with
       | some p => decide (1 ≤ p.tx_pending)
       | none => false)

/-- A sequence of counter calls is well-paired from `ep` when each call in
turn is admissible in the state the previous calls produced. -/
def tx_pending_ops_ok (ep : rxr_ep) : List tx_pending_op → Bool
  | [] => true
  | op :: rest =>
    tx_pending_op_ok ep op && tx_pending_ops_ok (apply_tx_pending_op ep op) rest

/-- All fields of a peer record except `tx_pending`, used to state that the
counter calls modify nothing else. -/
def peer_frame (p : rxr_peer) :
    Bool × Bool × Bool × Nat × Option Nat × Nat × Nat × Nat × Nat × Nat ×
    Nat × Nat × Nat × Nat :=
  (p.tx_init, p.rx_init, p.is_local, p.shm_fiaddr, p.robuf, p.next_msg_id,
   p.state, p.rnr_state, p.tx_credits, p.rx_credits, p.rnr_ts,
   p.rnr_queued_pkt_cnt, p.timeout_interval, p.rnr_timeout_exp)

/- ===================== smr_ep.c cancel path ===================== -/

/-- The fields of `struct smr_rx_entry` (smr.h, external to the provided
sources but fully determined by its uses in smr_ep.c) that the cancel path
consumes: the application context, source address, tag, ignore mask, and
flags. Pointers are modelled as Nat ids. -/
structure smr_rx_entry where
  context : Nat
  addr : Nat
  tag : Nat
  ignore : Nat
  flags : Nat
deriving DecidableEq

/-- One completion record as delivered by `smr_complete_rx`: context, op,
flags, length, buffer, source address, tag, data and the error code. -/
structure smr_completion where
  op_context : Nat
  op : Nat
  flags : Nat
  len : Nat
  buf : Nat
  addr : Nat
  tag : Nat
  data : Nat
  err : Nat
deriving DecidableEq

/-- Modelled from the spec: `smr_complete_rx` (defined outside the provided
sources; smr_ep.c only calls it) writes a completion for the receive —
"Cancellation of a posted recv ... writes a cancellation completion",
"NoMatch/Cancelled emits an error completion with ECANCELED" — carrying the
given context, op, flags, length, buffer, address, tag, data and error
code, and returns 0 on success. The CQ is modelled as the list of written
completions. -/
def smr_complete_rx (cq : List smr_completion)
    (context op flags len buf addr tag data err : Nat) :
    List smr_completion × Int :=
  (cq ++ [{ op_context := context, op := op, flags := flags, len := len,
            buf := buf, addr := addr, tag := tag, data := data, err := err }], 0)

/-- `smr_match_recv_ctx` (smr_ep.c lines 123-129): a posted receive matches
when its context equals the argument. -/
def smr_match_recv_ctx (context : Nat) (pending_recv : smr_rx_entry) : Bool :=
  pending_recv.context == context

/-- `dlist_remove_first_match` from ofi_list.h: remove and return the first
element of the list satisfying the match function, or `none`, leaving the
rest of the list in order. -/
def dlist_remove_first_match {α : Type} (p : α → Bool) :
    List α → Option (α × List α)
  | [] => none
  | a :: t =>
    if p a then some (a, t)
    else
      match dlist_remove_first_match p t with
      | none => none
      | some (e, t') => some (e, a :: t')

/-- The completion that `smr_ep_cancel_recv` writes for a cancelled
receive: `smr_complete_rx(ep, context, ofi_op_msg, flags, 0, NULL, addr,
tag, 0, FI_ECANCELED)`. -/
def smr_cancel_completion (e : smr_rx_entry) : smr_completion :=
  { op_context := e.context, op := ofi_op_msg, flags := e.flags, len := 0,
    buf := 0, addr := e.addr, tag := e.tag, data := 0, err := FI_ECANCELED }

/-- The state of a `struct smr_ep` that the cancel path touches: the
tagged and untagged posted-receive queues, the receive-entry free stack
`recv_fs`, and the bound receive CQ (as the list of completions written to
it). -/
structure smr_ep where
  trecv_queue : List smr_rx_entry
  recv_queue : List smr_rx_entry
  recv_fs : List smr_rx_entry
  rx_cq : List smr_completion
deriving DecidableEq

/-- `smr_ep_cancel_recv` (smr_ep.c lines 131-153): under the rx CQ lock,
remove the first entry of `queue` whose context matches; if one was found,
write its FI_ECANCELED completion via `smr_complete_rx`, push the entry
back on `recv_fs`, and return the completion-write error if nonzero, else
1; if none matches return 0 with nothing modified. The queue, free stack
and CQ are threaded explicitly since C mutates them in place. -/
def smr_ep_cancel_recv (queue : List smr_rx_entry) (fs : List smr_rx_entry)
    (cq : List smr_completion) (context : Nat) :
    List smr_rx_entry × List smr_rx_entry × List smr_completion × Int :=
  match dlist_remove_first_match (smr_match_recv_ctx context) queue with
  | none => (queue, fs, cq, 0)
  | some (recv_entry, queue') =>
      let r := smr_complete_rx cq recv_entry.context ofi_op_msg
        recv_entry.flags 0 0 recv_entry.addr recv_entry.tag 0 FI_ECANCELED
      (queue', recv_entry :: fs, r.1, if r.2 != 0 then r.2 else 1)

/-- `smr_ep_cancel` (smr_ep.c lines 155-168): try to cancel in the tagged
queue first; a nonzero result ends the call (negative results are returned
as errors, positive as 0); otherwise try the untagged queue the same way. -/
def smr_ep_cancel (ep : smr_ep) (context : Nat) : smr_ep × Int :=
  let t := smr_ep_cancel_recv ep.trecv_queue ep.recv_fs ep.rx_cq context
  if t.2.2.2 != 0 then
    ({ ep with trecv_queue := t.1, recv_fs := t.2.1, rx_cq := t.2.2.1 },
     if t.2.2.2 < 0 then t.2.2.2 else 0)
  else
    let u := smr_ep_cancel_recv ep.recv_queue t.2.1 t.2.2.1 context
    ({ ep with trecv_queue := t.1, recv_queue := u.1, recv_fs := u.2.1,
               rx_cq := u.2.2.1 },
     if u.2.2.2 < 0 then u.2.2.2 else 0)

/- ===================== theorems ===================== -/

/-- C1: `rxr_need_sas_ordering(ep)` returns true exactly when the
application requested send-after-send ordering, the core provider does not
natively supply it, and the `enable_sas_ordering` configuration flag is
set — the code conjoins all three. -/
theorem rxr_need_sas_ordering_iff (env : rxr_env) (ep : rxr_ep) :
    rxr_need_sas_ordering env ep = true ↔
      (ep.msg_order &&& FI_ORDER_SAS ≠ 0 ∧
       ep.core_msg_order &&& FI_ORDER_SAS = 0 ∧
       env.enable_sas_ordering ≠ 0) := by
  simp [rxr_need_sas_ordering, Bool.and_eq_true, and_assoc]

/-- C2: `rxr_peer_timeout_expired(ep, peer, ts)` returns true exactly when
`ts ≥ rnr_ts + min(max_timeout, timeout_interval * 2^rnr_timeout_exp)` in
exact integer arithmetic, and the default RNR backoff cap
`RXR_DEF_RNR_MAX_TIMEOUT` is 1,000,000 microseconds. -/
theorem rxr_peer_timeout_expired_iff (env : rxr_env) (peer : rxr_peer) (ts : Nat) :
    (rxr_peer_timeout_expired env peer ts = true ↔
      ts ≥ peer.rnr_ts +
        min env.max_timeout (peer.timeout_interval * 2 ^ peer.rnr_timeout_exp)) ∧
    RXR_DEF_RNR_MAX_TIMEOUT = 1000000 := by
  constructor
  · simp only [rxr_peer_timeout_expired, MIN, Nat.shiftLeft_eq, one_mul,
      decide_eq_true_eq, ge_iff_le]
    split <;> omega
  · rfl

/-- C4: receive matching. `rxr_match_tag(tag, ignore, match_tag)` returns
true iff `(tag | ignore) == (match_tag | ignore)`, and
`rxr_match_addr(addr, match_addr)` returns true iff `addr` is the wildcard
FI_ADDR_UNSPEC or `addr == match_addr`. -/
theorem rxr_match_tag_addr_iff (tag ignore match_tag addr match_addr : Nat) :
    (rxr_match_tag tag ignore match_tag = true ↔
      tag ||| ignore = match_tag ||| ignore) ∧
    (rxr_match_addr addr match_addr = true ↔
      (addr = FI_ADDR_UNSPEC ∨ addr = match_addr)) := by
  constructor
  · simp [rxr_match_tag]
  · simp [rxr_match_addr]

/-- C6: `efa_eq_write_error` aborts the process exactly when the EQ error
write does not succeed — no EQ is bound, or `fi_eq_write` does not return
the full entry size — and returns without aborting exactly when the EQ
write succeeds. -/
theorem efa_eq_write_error_abort_iff (ep : util_ep) (eq_write_ret : Int) :
    (efa_eq_write_error ep eq_write_ret = .aborted ↔
      (ep.eq = none ∨ eq_write_ret ≠ (sizeof_fi_eq_err_entry : Int))) ∧
    (efa_eq_write_error ep eq_write_ret = .returned ↔
      (ep.eq ≠ none ∧ eq_write_ret = (sizeof_fi_eq_err_entry : Int))) := by
  cases h : ep.eq with
  | none => simp [efa_eq_write_error, h]
  | some v =>
      by_cases hr : eq_write_ret = (sizeof_fi_eq_err_entry : Int) <;>
        simp [efa_eq_write_error, h, hr]

/-- Counterexample to C8 as stated: the claim says `rxr_mr_regv` omits the
initialization of `iface`. Under an omission, the attr reaching
`rxr_mr_regattr` would carry whatever indeterminate value the uninitialized
field held — here the concrete stack word 2, as
`rxr_mr_regv_spec_omitted_iface` (the spec's words) shows. The source
(rxr_domain.c line 271) instead assigns the field, so `rxr_mr_regv`
produces `iface = FI_HMEM_SYSTEM` (0) at the same input: the two disagree,
refuting the claimed omission. -/
theorem rxr_mr_regv_omitted_iface_counterexample :
    (rxr_mr_regv_spec_omitted_iface 2 [] 0 0 0 0 0).iface = 2 ∧
    (rxr_mr_regv [] 0 0 0 0 0).iface = FI_HMEM_SYSTEM ∧
    (rxr_mr_regv_spec_omitted_iface 2 [] 0 0 0 0 0).iface ≠
      (rxr_mr_regv [] 0 0 0 0 0).iface := by
  refine ⟨rfl, rfl, ?_⟩
  decide

/-- C8 as amended: `rxr_mr_regv` explicitly initializes the registration's
memory interface — rxr_domain.c line 271 assigns
`attr.iface = FI_HMEM_SYSTEM` — so every registration through
`rxr_mr_regv` or `rxr_mr_reg` passes a `fi_mr_attr` to `rxr_mr_regattr`
whose memory interface is `FI_HMEM_SYSTEM`, and the effective interface on
the plain reg path is system memory. -/
theorem rxr_mr_regv_iface_system
    (iov : List (Nat × Nat)) (count access offset requested_key context : Nat)
    (buf len : Nat) :
    (rxr_mr_regv iov count access offset requested_key context).iface =
      FI_HMEM_SYSTEM ∧
    (rxr_mr_reg buf len access offset requested_key context).iface =
      FI_HMEM_SYSTEM := by
  exact ⟨rfl, rfl⟩

/-- C9: the protocol-level limits: maximum source address length 32 bytes,
scatter-gather limit 4 per operation, protocol version 4 with major
version 2 and minor version 0, and default MTU bound 2^15. -/
theorem rxr_protocol_constants :
    RXR_MAX_NAME_LENGTH = 32 ∧
    RXR_IOV_LIMIT = 4 ∧
    RXR_PROTOCOL_VERSION = 4 ∧
    RXR_MAJOR_VERSION = 2 ∧
    RXR_MINOR_VERSION = 0 ∧
    RXR_MTU_MAX_LIMIT = 2 ^ 15 := by
  refine ⟨rfl, rfl, rfl, rfl, rfl, ?_⟩
  decide

/-- C3: initializing a peer on first inbound RTS: for a peer whose rx state
is uninitialized (the asserted precondition), `rxr_ep_peer_init` allocates
its receive window with `recvwin_size` slots, pre-credits `rx_credits`
with `rx_window_size`, sets `rx_init`, and initializes the tx state —
`tx_credits = tx_max_credits` — only when `tx_init` was false beforehand,
leaving `tx_credits` unchanged otherwise. -/
theorem rxr_ep_peer_init_spec (env : rxr_env) (peer : rxr_peer)
    (hrx : peer.rx_init = false)
    (hw : env.rx_window_size < 2 ^ 16)
    (hc : env.tx_max_credits < 2 ^ 16) :
    (rxr_ep_peer_init env peer).robuf = some env.recvwin_size ∧
    (rxr_ep_peer_init env peer).rx_credits = env.rx_window_size ∧
    (rxr_ep_peer_init env peer).rx_init = true ∧
    (rxr_ep_peer_init env peer).tx_init = true ∧
    (rxr_ep_peer_init env peer).tx_credits =
      (if peer.tx_init then peer.tx_credits else env.tx_max_credits) := by
  unfold rxr_ep_peer_init
  cases h : peer.tx_init <;>
    simp [h, Nat.mod_eq_of_lt hw, Nat.mod_eq_of_lt hc] <;> omega

/-- Witness for C3 at a fresh peer and the default configuration. -/
theorem rxr_ep_peer_init_spec_witness :
    ((⟨false, false, false, 0, none, 0, 0, 0, 0, 0, 0, 0, 0, 0, 0⟩ :
        rxr_peer).rx_init = false ∧
     (128 : Nat) < 2 ^ 16 ∧ (64 : Nat) < 2 ^ 16) ∧
    (rxr_ep_peer_init ⟨128, 32, 64, 1, 16384, 1000000, 0⟩
        ⟨false, false, false, 0, none, 0, 0, 0, 0, 0, 0, 0, 0, 0, 0⟩).robuf =
      some 16384 :=
  ⟨⟨rfl, by decide, by decide⟩,
   (rxr_ep_peer_init_spec ⟨128, 32, 64, 1, 16384, 1000000, 0⟩
      ⟨false, false, false, 0, none, 0, 0, 0, 0, 0, 0, 0, 0, 0, 0⟩
      rfl (by decide) (by decide)).1⟩

theorem poison_words_length (c : Nat) :
    ∀ (mem : List Nat) (i : Nat), (poison_words mem i c).length = mem.length := by
  induction c with
  | zero => intro mem i; rfl
  | succ c ih =>
      intro mem i
      simp only [poison_words, ih, List.length_set]

theorem poison_words_get?_lt (c : Nat) :
    ∀ (mem : List Nat) (i j : Nat), j < i →
      (poison_words mem i c).get? j = mem.get? j := by
  induction c with
  | zero => intro mem i j _; rfl
  | succ c ih =>
      intro mem i j h
      simp only [poison_words]
      rw [ih _ _ _ (by omega), List.get?_set_ne _ _ (by omega)]

theorem poison_words_get?_mem (c : Nat) :
    ∀ (mem : List Nat) (i j : Nat), i ≤ j → j < i + c → j < mem.length →
      (poison_words mem i c).get? j = some rxr_poison_value := by
  induction c with
  | zero => intro mem i j h1 h2 _; omega
  | succ c ih =>
      intro mem i j h1 h2 h3
      simp only [poison_words]
      rcases Nat.eq_or_lt_of_le h1 with h | h
      · rw [poison_words_get?_lt c _ _ _ (by omega), ← h,
          List.get?_set_eq_of_lt _ (by omega)]
      · exact ih _ _ _ (by omega) (by omega) (by simpa using h3)

theorem rxr_poison_mem_region_get? (mem : List Nat) (j : Nat)
    (h : j < mem.length) :
    (rxr_poison_mem_region mem).get? j = some rxr_poison_value :=
  poison_words_get?_mem mem.length mem 0 j (Nat.zero_le j) (by omega) h

theorem rxr_poison_mem_region_length (mem : List Nat) :
    (rxr_poison_mem_region mem).length = mem.length :=
  poison_words_length mem.length mem 0

/-- C7: releasing an operation-tracking record whose `queued_pkts` list is
empty (the asserted precondition) sets its state to RXR_TX_FREE (resp.
RXR_RX_FREE) and returns it to its pool; when poisoning is enabled the
entire record is first overwritten word-by-word with the fixed sentinel
`rxr_poison_value` before reuse (every word except the state word — which
the code rewrites to FREE after poisoning — holds the sentinel). -/
theorem rxr_release_entry_spec (poisoning : Bool) (state_off : Nat)
    (e : rxr_x_entry_mem) (pool : List rxr_x_entry_mem)
    (hq : e.queued_pkts = []) (hs : state_off < e.mem.length) :
    (∃ e', rxr_release_tx_entry poisoning state_off e pool = e' :: pool ∧
      e'.mem.get? state_off = some RXR_TX_FREE ∧
      e'.mem.length = e.mem.length ∧
      (poisoning = true → ∀ j, j < e.mem.length → j ≠ state_off →
        e'.mem.get? j = some rxr_poison_value)) ∧
    (∃ e', rxr_release_rx_entry poisoning state_off e pool = e' :: pool ∧
      e'.mem.get? state_off = some RXR_RX_FREE ∧
      e'.mem.length = e.mem.length ∧
      (poisoning = true → ∀ j, j < e.mem.length → j ≠ state_off →
        e'.mem.get? j = some rxr_poison_value)) := by
  constructor
  · refine ⟨_, rfl, ?_, ?_, ?_⟩
    · cases poisoning <;>
        simp [List.get?_set_eq_of_lt, hs, rxr_poison_mem_region_length]
    · cases poisoning <;>
        simp [List.length_set, rxr_poison_mem_region_length]
    · intro hp j hj hne
      subst hp
      simp only [if_pos]
      rw [List.get?_set_ne _ _ (Ne.symm hne)]
      exact rxr_poison_mem_region_get? e.mem j hj
  · refine ⟨_, rfl, ?_, ?_, ?_⟩
    · cases poisoning <;>
        simp [List.get?_set_eq_of_lt, hs, rxr_poison_mem_region_length]
    · cases poisoning <;>
        simp [List.length_set, rxr_poison_mem_region_length]
    · intro hp j hj hne
      subst hp
      simp only [if_pos]
      rw [List.get?_set_ne _ _ (Ne.symm hne)]
      exact rxr_poison_mem_region_get? e.mem j hj

/-- Witness for C7 on a two-word record with poisoning enabled. -/
theorem rxr_release_entry_spec_witness :
    ((⟨[], [3, 4]⟩ : rxr_x_entry_mem).queued_pkts = [] ∧
     (0 : Nat) < (⟨[], [3, 4]⟩ : rxr_x_entry_mem).mem.length) ∧
    (∃ e', rxr_release_tx_entry true 0 ⟨[], [3, 4]⟩ [] = e' :: [] ∧
      e'.mem.get? 0 = some RXR_TX_FREE ∧
      e'.mem.length = (⟨[], [3, 4]⟩ : rxr_x_entry_mem).mem.length ∧
      (true = true → ∀ j, j < (⟨[], [3, 4]⟩ : rxr_x_entry_mem).mem.length →
        j ≠ 0 → e'.mem.get? j = some rxr_poison_value)) :=
  ⟨⟨rfl, by decide⟩,
   (rxr_release_entry_spec true 0 ⟨[], [3, 4]⟩ [] rfl (by decide)).1⟩

theorem dlist_remove_first_match_none_iff {α : Type} (p : α → Bool) :
    ∀ l : List α, dlist_remove_first_match p l = none ↔ ∀ a ∈ l, p a = false := by
  intro l
  induction l with
  | nil => simp [dlist_remove_first_match]
  | cons a t ih =>
      cases hpa : p a with
      | true => simp [dlist_remove_first_match, hpa]
      | false =>
          cases hr : dlist_remove_first_match p t with
          | none =>
              simp only [dlist_remove_first_match, hpa, Bool.false_eq_true,
                if_false, hr, List.mem_cons]
              constructor
              · intro _ a ha
                rcases ha with h | h
                · exact h ▸ hpa
                · exact (ih.mp hr) a h
              · intro _; trivial
          | some v =>
              obtain ⟨e, t'⟩ := v
              have hall : ¬ ∀ a ∈ t, p a = false := by
                intro hall
                rw [ih.mpr hall] at hr
                exact Option.noConfusion hr
              simp only [dlist_remove_first_match, hpa, Bool.false_eq_true,
                if_false, hr, List.mem_cons]
              constructor
              · intro h; exact Option.noConfusion h
              · intro h
                exact absurd (fun a ha => h a (Or.inr ha)) hall

/-- C5: cancelling a posted receive. If an entry with the given context is
present in the tagged posted-receive queue, `smr_ep_cancel` removes the
first match from it, writes its FI_ECANCELED completion, pushes the entry
back on the free stack and returns 0; failing that it does the same on the
untagged queue; if neither queue holds a match, nothing is modified, no
completion is written, and 0 is returned. The `none` cases of the removal
are characterized as absence of any entry with the context, and the
written completion's error code is FI_ECANCELED. -/
theorem smr_ep_cancel_spec (ep : smr_ep) (context : Nat) :
    (∀ e q',
      dlist_remove_first_match (smr_match_recv_ctx context) ep.trecv_queue =
          some (e, q') →
      smr_ep_cancel ep context =
        ({ ep with trecv_queue := q', recv_fs := e :: ep.recv_fs,
                   rx_cq := ep.rx_cq ++ [smr_cancel_completion e] }, 0)) ∧
    (dlist_remove_first_match (smr_match_recv_ctx context) ep.trecv_queue =
        none →
      ∀ e q',
        dlist_remove_first_match (smr_match_recv_ctx context) ep.recv_queue =
            some (e, q') →
        smr_ep_cancel ep context =
          ({ ep with recv_queue := q', recv_fs := e :: ep.recv_fs,
                     rx_cq := ep.rx_cq ++ [smr_cancel_completion e] }, 0)) ∧
    (dlist_remove_first_match (smr_match_recv_ctx context) ep.trecv_queue =
        none →
      dlist_remove_first_match (smr_match_recv_ctx context) ep.recv_queue =
          none →
      smr_ep_cancel ep context = (ep, 0)) ∧
    (dlist_remove_first_match (smr_match_recv_ctx context) ep.trecv_queue =
        none ↔ ∀ e ∈ ep.trecv_queue, e.context ≠ context) ∧
    (dlist_remove_first_match (smr_match_recv_ctx context) ep.recv_queue =
        none ↔ ∀ e ∈ ep.recv_queue, e.context ≠ context) ∧
    (∀ e : smr_rx_entry, (smr_cancel_completion e).err = FI_ECANCELED) := by
  refine ⟨?_, ?_, ?_, ?_, ?_, fun e => rfl⟩
  · intro e q' h
    simp [smr_ep_cancel, smr_ep_cancel_recv, h, smr_complete_rx,
      smr_cancel_completion]
  · intro h1 e q' h2
    simp [smr_ep_cancel, smr_ep_cancel_recv, h1, h2, smr_complete_rx,
      smr_cancel_completion]
  · intro h1 h2
    simp [smr_ep_cancel, smr_ep_cancel_recv, h1, h2]
  · simp [dlist_remove_first_match_none_iff, smr_match_recv_ctx]
  · simp [dlist_remove_first_match_none_iff, smr_match_recv_ctx]

/-- Witness for C5: one tagged posted receive with context 7 is cancelled. -/
theorem smr_ep_cancel_spec_witness :
    dlist_remove_first_match (smr_match_recv_ctx 7)
        ({ trecv_queue := [⟨7, 1, 2, 3, 4⟩], recv_queue := [], recv_fs := [],
           rx_cq := [] } : smr_ep).trecv_queue = some (⟨7, 1, 2, 3, 4⟩, []) ∧
    smr_ep_cancel
        { trecv_queue := [⟨7, 1, 2, 3, 4⟩], recv_queue := [], recv_fs := [],
          rx_cq := [] } 7 =
      ({ trecv_queue := [], recv_queue := [], recv_fs := [⟨7, 1, 2, 3, 4⟩],
         rx_cq := [smr_cancel_completion ⟨7, 1, 2, 3, 4⟩] }, 0) :=
  ⟨by decide,
   (smr_ep_cancel_spec
      { trecv_queue := [⟨7, 1, 2, 3, 4⟩], recv_queue := [], recv_fs := [],
        rx_cq := [] } 7).1 ⟨7, 1, 2, 3, 4⟩ [] (by decide)⟩

theorem listModify_length {α : Type} (f : α → α) :
    ∀ (l : List α) (i : Nat), (listModify l i f).length = l.length := by
  intro l
  induction l with
  | nil => intro i; rfl
  | cons a t ih => intro i; cases i <;> simp [listModify, ih]

theorem listModify_map {α β : Type} (g : α → β) (f : α → α)
    (hf : ∀ a, g (f a) = g a) :
    ∀ (l : List α) (i : Nat), (listModify l i f).map g = l.map g := by
  intro l
  induction l with
  | nil => intro i; rfl
  | cons a t ih =>
      intro i
      cases i with
      | zero => simp [listModify, hf]
      | succ n => simp [listModify, ih]

theorem listModify_get?_self {α : Type} (f : α → α) :
    ∀ (l : List α) (i : Nat) (p : α), l.get? i = some p →
      (listModify l i f).get? i = some (f p) := by
  intro l
  induction l with
  | nil => intro i p h; simp at h
  | cons a t ih =>
      intro i p h
      cases i with
      | zero =>
          simp only [List.get?_cons_zero, Option.some_inj] at h
          subst h; rfl
      | succ n =>
          simp only [List.get?_cons_succ] at h
          simpa [listModify] using ih n p h

theorem tx_pending_sum_inc :
    ∀ (l : List rxr_peer) (i : Nat) (p : rxr_peer), l.get? i = some p →
      tx_pending_sum (listModify l i
        (fun q => { q with tx_pending := q.tx_pending + 1 })) =
        tx_pending_sum l + 1 := by
  intro l
  induction l with
  | nil => intro i p h; simp at h
  | cons a t ih =>
      intro i p h
      cases i with
      | zero => simp [listModify, tx_pending_sum]; omega
      | succ n =>
          simp only [List.get?_cons_succ] at h
          have := ih n p h
          simp only [listModify, tx_pending_sum, List.foldr_cons] at this ⊢
          omega

theorem tx_pending_sum_dec :
    ∀ (l : List rxr_peer) (i : Nat) (p : rxr_peer), l.get? i = some p →
      1 ≤ p.tx_pending →
      tx_pending_sum (listModify l i
        (fun q => { q with tx_pending := q.tx_pending - 1 })) + 1 =
        tx_pending_sum l := by
  intro l
  induction l with
  | nil => intro i p h _; simp at h
  | cons a t ih =>
      intro i p h hp
      cases i with
      | zero =>
          simp only [List.get?_cons_zero, Option.some_inj] at h
          subst h
          simp [listModify, tx_pending_sum]; omega
      | succ n =>
          simp only [List.get?_cons_succ] at h
          have := ih n p h hp
          simp only [listModify, tx_pending_sum, List.foldr_cons] at this ⊢
          omega

theorem apply_tx_pending_op_good (ep : rxr_ep) (op : tx_pending_op)
    (hok : tx_pending_op_ok ep op = true)
    (hg : ep.tx_pending = tx_pending_sum ep.peer) :
    (apply_tx_pending_op ep op).tx_pending =
      tx_pending_sum (apply_tx_pending_op ep op).peer := by
  cases op with
  | inc i =>
      simp only [tx_pending_op_ok, decide_eq_true_eq] at hok
      obtain ⟨p, hp⟩ : ∃ p, ep.peer.get? i = some p :=
        ⟨_, List.get?_eq_get hok⟩
      simp only [apply_tx_pending_op, rxr_ep_inc_tx_pending]
      rw [tx_pending_sum_inc ep.peer i p hp]
      omega
  | dec i failed =>
      simp only [tx_pending_op_ok, Bool.and_eq_true, decide_eq_true_eq] at hok
      obtain ⟨hlen, hpos⟩ := hok
      cases hp : ep.peer.get? i with
      | none => rw [hp] at hpos; simp at hpos
      | some p =>
          rw [hp] at hpos
          simp only [decide_eq_true_eq] at hpos
          simp only [apply_tx_pending_op, rxr_ep_dec_tx_pending]
          have := tx_pending_sum_dec ep.peer i p hp hpos
          omega

theorem apply_tx_pending_op_frame (ep : rxr_ep) (op : tx_pending_op) :
    (apply_tx_pending_op ep op).msg_order = ep.msg_order ∧
    (apply_tx_pending_op ep op).core_msg_order = ep.core_msg_order ∧
    (apply_tx_pending_op ep op).rm_full = ep.rm_full ∧
    (apply_tx_pending_op ep op).peer.map peer_frame =
      ep.peer.map peer_frame := by
  cases op with
  | inc i =>
      refine ⟨rfl, rfl, rfl, ?_⟩
      simp only [apply_tx_pending_op, rxr_ep_inc_tx_pending]
      exact listModify_map peer_frame
        (fun p => { p with tx_pending := p.tx_pending + 1 })
        (fun a => rfl) ep.peer i
  | dec i failed =>
      refine ⟨rfl, rfl, rfl, ?_⟩
      simp only [apply_tx_pending_op, rxr_ep_dec_tx_pending]
      exact listModify_map peer_frame
        (fun p => { p with tx_pending := p.tx_pending - 1 })
        (fun a => rfl) ep.peer i

theorem tx_pending_fold_invariant (ops : List tx_pending_op) :
    ∀ ep : rxr_ep, tx_pending_ops_ok ep ops = true →
      ep.tx_pending = tx_pending_sum ep.peer →
      (ops.foldl apply_tx_pending_op ep).tx_pending =
        tx_pending_sum (ops.foldl apply_tx_pending_op ep).peer ∧
      (ops.foldl apply_tx_pending_op ep).msg_order = ep.msg_order ∧
      (ops.foldl apply_tx_pending_op ep).core_msg_order = ep.core_msg_order ∧
      (ops.foldl apply_tx_pending_op ep).rm_full = ep.rm_full ∧
      (ops.foldl apply_tx_pending_op ep).peer.map peer_frame =
        ep.peer.map peer_frame := by
  induction ops with
  | nil => intro ep _ hg; exact ⟨hg, rfl, rfl, rfl, rfl⟩
  | cons op rest ih =>
      intro ep hok hg
      simp only [tx_pending_ops_ok, Bool.and_eq_true] at hok
      have hgood := apply_tx_pending_op_good ep op hok.1 hg
      have hframe := apply_tx_pending_op_frame ep op
      have hrest := ih (apply_tx_pending_op ep op) hok.2 hgood
      simp only [List.foldl_cons]
      exact ⟨hrest.1, hrest.2.1.trans hframe.1, hrest.2.2.1.trans hframe.2.1,
        hrest.2.2.2.1.trans hframe.2.2.1, hrest.2.2.2.2.trans hframe.2.2.2⟩

/-- C10: `rxr_ep_inc_tx_pending` increments both `ep->tx_pending` and the
targeted peer's `tx_pending` by exactly one, `rxr_ep_dec_tx_pending`
decrements both by exactly one, and any well-paired sequence of such calls
(every dec matched by a prior inc, so it hits a peer with a positive
count) preserves the invariant that `ep->tx_pending` equals the sum over
all peers of `peer->tx_pending`, while modifying no other field of the
endpoint or of any peer. -/
theorem rxr_tx_pending_consistency (ep : rxr_ep) (ops : List tx_pending_op)
    (hok : tx_pending_ops_ok ep ops = true)
    (hg : ep.tx_pending = tx_pending_sum ep.peer) :
    (∀ i p, ep.peer.get? i = some p →
      (rxr_ep_inc_tx_pending ep i).tx_pending = ep.tx_pending + 1 ∧
      (rxr_ep_inc_tx_pending ep i).peer.get? i =
        some { p with tx_pending := p.tx_pending + 1 } ∧
      ∀ failed : Int,
        (rxr_ep_dec_tx_pending ep i failed).tx_pending = ep.tx_pending - 1 ∧
        (rxr_ep_dec_tx_pending ep i failed).peer.get? i =
          some { p with tx_pending := p.tx_pending - 1 }) ∧
    (ops.foldl apply_tx_pending_op ep).tx_pending =
      tx_pending_sum (ops.foldl apply_tx_pending_op ep).peer ∧
    (ops.foldl apply_tx_pending_op ep).msg_order = ep.msg_order ∧
    (ops.foldl apply_tx_pending_op ep).core_msg_order = ep.core_msg_order ∧
    (ops.foldl apply_tx_pending_op ep).rm_full = ep.rm_full ∧
    (ops.foldl apply_tx_pending_op ep).peer.map peer_frame =
      ep.peer.map peer_frame := by
  refine ⟨?_, tx_pending_fold_invariant ops ep hok hg⟩
  intro i p hp
  exact ⟨rfl, listModify_get?_self _ ep.peer i p hp,
    fun failed => ⟨rfl, listModify_get?_self _ ep.peer i p hp⟩⟩

/-- Witness for C10: one peer with five pending sends, one inc/dec pair. -/
theorem rxr_tx_pending_consistency_witness :
    (tx_pending_ops_ok
        ⟨0, 0, 0, 5, [⟨false, false, false, 0, none, 0, 0, 0, 5, 0, 0, 0, 0, 0, 0⟩]⟩
        [.inc 0, .dec 0 0] = true ∧
     (⟨0, 0, 0, 5, [⟨false, false, false, 0, none, 0, 0, 0, 5, 0, 0, 0, 0, 0, 0⟩]⟩ :
        rxr_ep).tx_pending =
       tx_pending_sum
         (⟨0, 0, 0, 5, [⟨false, false, false, 0, none, 0, 0, 0, 5, 0, 0, 0, 0, 0, 0⟩]⟩ :
            rxr_ep).peer) ∧
    ([tx_pending_op.inc 0, tx_pending_op.dec 0 0].foldl apply_tx_pending_op
        ⟨0, 0, 0, 5, [⟨false, false, false, 0, none, 0, 0, 0, 5, 0, 0, 0, 0, 0, 0⟩]⟩).tx_pending =
      tx_pending_sum
        ([tx_pending_op.inc 0, tx_pending_op.dec 0 0].foldl apply_tx_pending_op
          ⟨0, 0, 0, 5, [⟨false, false, false, 0, none, 0, 0, 0, 5, 0, 0, 0, 0, 0, 0⟩]⟩).peer :=
  ⟨⟨by decide, by decide⟩,
   (rxr_tx_pending_consistency
      ⟨0, 0, 0, 5, [⟨false, false, false, 0, none, 0, 0, 0, 5, 0, 0, 0, 0, 0, 0⟩]⟩
      [.inc 0, .dec 0 0] (by decide) (by decide)).2.1⟩
